import Mathlib

/-!
Verification of the simple_neural_net repository (src/simple_net.py and
src/optimizers.py) against its natural-language specification.

Numeric arrays are modelled as `Matrix (Fin m) (Fin n) ℝ`: dense rectangular
tensors of real numbers, with the batch dimension first.  Floating-point
values are idealised as real numbers; shape questions and non-finite results
(numpy's `inf`/`nan`) are handled by a separate untyped model (`NpModel`
below) in which fallible operations return `Option`.
-/

namespace NNVerify

open Matrix Real

noncomputable section RealModel

/-! ## Optimizers (src/optimizers.py)

Python's `-=` on a numpy array mutates the array in place, so each
`update_weights` is modelled by explicit state passing: it returns both the
value the Python method returns and the value the caller's weight array holds
after the call (they are the same array in the source).  `RMSProp` carries
mutable fields `r` and `velocity`, so its update also returns the new
instance state. -/

/-- The `GradientDescent` optimizer class: its only state is the
`learning_rate` field set in `__init__` and never changed. -/
structure GradientDescent : Type where
  learning_rate : ℝ

/-- `GradientDescent.update_weights(self, weight_matrix, gradient)`:
`weight_matrix -= self.learning_rate * gradient; return weight_matrix`.
Returns (returned value, value of the caller's `weight_matrix` array after
the call); the in-place `-=` makes the two components equal. -/
def GradientDescent.update_weights {m n : ℕ} (o : GradientDescent)
    (weight_matrix gradient : Matrix (Fin m) (Fin n) ℝ) :
    Matrix (Fin m) (Fin n) ℝ × Matrix (Fin m) (Fin n) ℝ :=
  let w2 : Matrix (Fin m) (Fin n) ℝ :=
    fun i j => weight_matrix i j - o.learning_rate * gradient i j
  (w2, w2)

/-- The `RMSProp` optimizer class, tracking a weight tensor of shape m × n.
In the source `self.r` and `self.velocity` are initialised to the scalar `0`,
which numpy broadcasts against the gradient on the first update; here they
are the zero matrix of the tracked shape, which has the same value-level
behaviour. -/
structure RMSProp (m n : ℕ) : Type where
  gamma : ℝ
  alpha : ℝ
  eps : ℝ
  r : Matrix (Fin m) (Fin n) ℝ
  velocity : Matrix (Fin m) (Fin n) ℝ

/-- `RMSProp.__init__(self, gamma, alpha, eps)`: stores the three
configuration values and zero-initialises `r` and `velocity`. -/
def RMSProp.new (m n : ℕ) (gamma alpha eps : ℝ) : RMSProp m n :=
  ⟨gamma, alpha, eps, 0, 0⟩

/-- A freshly constructed `RMSProp()` with the source's default arguments
`gamma=0.9, alpha=0.001, eps=0.00000001`. -/
def RMSProp.defaultNew (m n : ℕ) : RMSProp m n :=
  RMSProp.new m n 0.9 0.001 0.00000001

/-- `RMSProp.update_weights(self, weight_matrix, gradient)`:
`self.r = self.gamma * np.square(gradient) + (1 - self.gamma) * self.r`;
`self.velocity = np.multiply(self.alpha / (np.sqrt(self.r) + self.eps), gradient)`;
`weight_matrix -= self.velocity; return weight_matrix`.
Returns (returned value, caller's `weight_matrix` array after the call,
the instance's state after the call). -/
def RMSProp.update_weights {m n : ℕ} (s : RMSProp m n)
    (weight_matrix gradient : Matrix (Fin m) (Fin n) ℝ) :
    Matrix (Fin m) (Fin n) ℝ × Matrix (Fin m) (Fin n) ℝ × RMSProp m n :=
  let r2 : Matrix (Fin m) (Fin n) ℝ :=
    fun i j => s.gamma * (gradient i j) ^ 2 + (1 - s.gamma) * s.r i j
  let v2 : Matrix (Fin m) (Fin n) ℝ :=
    fun i j => (s.alpha / (Real.sqrt (r2 i j) + s.eps)) * gradient i j
  let w2 : Matrix (Fin m) (Fin n) ℝ :=
    fun i j => weight_matrix i j - v2 i j
  (w2, w2, ⟨s.gamma, s.alpha, s.eps, r2, v2⟩)

/-! ## The network core (src/simple_net.py)

`LEARNING_RATE` comes from the external `constants` module (configuration,
not in the repository core), so it is a parameter `lr` here. -/

/-- `sigmoid(vector)`: `1 / (1 + np.exp(-vector))`, element-wise. -/
def sigmoid {m n : ℕ} (vector : Matrix (Fin m) (Fin n) ℝ) :
    Matrix (Fin m) (Fin n) ℝ :=
  fun i j => 1 / (1 + Real.exp (-vector i j))

/-- `softmax(vector)`:
`np.exp(vector) / np.sum(np.exp(vector), axis=1, keepdims=True)` —
each entry is exponentiated and divided by its own row's sum of
exponentials. -/
def softmax {m n : ℕ} (vector : Matrix (Fin m) (Fin n) ℝ) :
    Matrix (Fin m) (Fin n) ℝ :=
  fun i j => Real.exp (vector i j) / ∑ k, Real.exp (vector i k)

/-- `log_loss(true_output, net_output)`:
`sum = - np.sum(np.multiply(true_output, np.log(net_output)) / net_output.shape[1], axis=1)`
followed by `np.mean(sum)`.  `np.log` is idealised as `Real.log` (the
non-finite behaviour at non-positive entries is handled in `NpModel`). -/
def log_loss {m n : ℕ} (true_output net_output : Matrix (Fin m) (Fin n) ℝ) : ℝ :=
  (∑ i, -(∑ j, true_output i j * Real.log (net_output i j) / (n : ℝ))) / (m : ℝ)

/-- `update_weights(weight_matrix, gradient, learning_rate)` of
simple_net.py: `weight_matrix -= learning_rate * gradient; return
weight_matrix` (value of the returned array). -/
def update_weights {m n : ℕ} (weight_matrix gradient : Matrix (Fin m) (Fin n) ℝ)
    (learning_rate : ℝ) : Matrix (Fin m) (Fin n) ℝ :=
  fun i j => weight_matrix i j - learning_rate * gradient i j

/-- `forward_pass(input, input_hidden_weight, bias_input, hidden_output_weight, bias_hidden)`:
`hidden_layer = np.dot(input, input_hidden_weight) + bias_input` (the 1 × nh
bias row is broadcast across the batch rows);
`hidden_activations = sigmoid(hidden_layer)`; returns
`(softmax(np.dot(hidden_activations, hidden_output_weight) + bias_hidden), hidden_activations)`. -/
def forward_pass {nb din nh nc : ℕ}
    (input : Matrix (Fin nb) (Fin din) ℝ)
    (input_hidden_weight : Matrix (Fin din) (Fin nh) ℝ)
    (bias_input : Matrix (Fin 1) (Fin nh) ℝ)
    (hidden_output_weight : Matrix (Fin nh) (Fin nc) ℝ)
    (bias_hidden : Matrix (Fin 1) (Fin nc) ℝ) :
    Matrix (Fin nb) (Fin nc) ℝ × Matrix (Fin nb) (Fin nh) ℝ :=
  let hidden_layer : Matrix (Fin nb) (Fin nh) ℝ :=
    fun i j => (input * input_hidden_weight) i j + bias_input 0 j
  let hidden_activations := sigmoid hidden_layer
  (softmax (fun i j =>
      (hidden_activations * hidden_output_weight) i j + bias_hidden 0 j),
   hidden_activations)

/-- `backprop(y, y_, hidden_output_activations, hidden_weights, input_weights, bias_hidden, bias_input, input_x)`:
the hand-derived backpropagation step.  `y.shape[1]` is the number of
classes `nc`.  Returns the four updated tensors in the source's order
`(hidden_weights, bias_hidden, input_weights, bias_input)`. -/
def backprop {nb din nh nc : ℕ} (lr : ℝ)
    (y y_ : Matrix (Fin nb) (Fin nc) ℝ)
    (hidden_output_activations : Matrix (Fin nb) (Fin nh) ℝ)
    (hidden_weights : Matrix (Fin nh) (Fin nc) ℝ)
    (input_weights : Matrix (Fin din) (Fin nh) ℝ)
    (bias_hidden : Matrix (Fin 1) (Fin nc) ℝ)
    (bias_input : Matrix (Fin 1) (Fin nh) ℝ)
    (input_x : Matrix (Fin nb) (Fin din) ℝ) :
    Matrix (Fin nh) (Fin nc) ℝ × Matrix (Fin 1) (Fin nc) ℝ ×
      Matrix (Fin din) (Fin nh) ℝ × Matrix (Fin 1) (Fin nh) ℝ :=
  let dLdy_ : Matrix (Fin nb) (Fin nc) ℝ :=
    fun i j => (y_ i j - y i j) / (nc : ℝ)
  let dLdhiddenActiv : Matrix (Fin nc) (Fin nh) ℝ :=
    dLdy_ᵀ * hidden_output_activations
  let delta_h : Matrix (Fin nb) (Fin nh) ℝ :=
    fun i j =>
      (hidden_output_activations i j * (1 - hidden_output_activations i j)) *
        (dLdy_ * hidden_weightsᵀ) i j
  let dLdWinput : Matrix (Fin din) (Fin nh) ℝ := input_xᵀ * delta_h
  let hidden_weights2 := update_weights hidden_weights dLdhiddenActivᵀ lr
  let bias_hidden2 :=
    update_weights bias_hidden (fun _ j => ∑ i, dLdy_ i j) lr
  let input_weights2 := update_weights input_weights dLdWinput lr
  let bias_input2 :=
    update_weights bias_input (fun _ j => ∑ i, delta_h i j) lr
  (hidden_weights2, bias_hidden2, input_weights2, bias_input2)

/-! ## Claim-side formulations

These definitions transcribe the spec's formulas (the claims' wording), to
be compared with the source-derived definitions above. -/

/-- Claim formula: `d_output = (predictions - true_labels) / num_classes`. -/
def d_output {nb nc : ℕ} (true_labels predictions : Matrix (Fin nb) (Fin nc) ℝ) :
    Matrix (Fin nb) (Fin nc) ℝ :=
  fun i j => (predictions i j - true_labels i j) / (nc : ℝ)

/-- Claim formula: `grad_W2 = transpose(d_output) · hidden_activations`,
transposed back to hidden_dim × num_classes. -/
def grad_W2 {nb nh nc : ℕ} (true_labels predictions : Matrix (Fin nb) (Fin nc) ℝ)
    (hidden_activations : Matrix (Fin nb) (Fin nh) ℝ) :
    Matrix (Fin nh) (Fin nc) ℝ :=
  ((d_output true_labels predictions)ᵀ * hidden_activations)ᵀ

/-- Claim formula:
`delta_hidden = hidden_activations ⊙ (1 - hidden_activations) ⊙ (d_output · transpose(W2))`. -/
def delta_hidden {nb nh nc : ℕ}
    (true_labels predictions : Matrix (Fin nb) (Fin nc) ℝ)
    (hidden_activations : Matrix (Fin nb) (Fin nh) ℝ)
    (W2 : Matrix (Fin nh) (Fin nc) ℝ) : Matrix (Fin nb) (Fin nh) ℝ :=
  fun i j =>
    hidden_activations i j * (1 - hidden_activations i j) *
      ((d_output true_labels predictions) * W2ᵀ) i j

/-- Claim formula: `grad_W1 = transpose(input_batch) · delta_hidden`. -/
def grad_W1 {nb din nh nc : ℕ}
    (true_labels predictions : Matrix (Fin nb) (Fin nc) ℝ)
    (hidden_activations : Matrix (Fin nb) (Fin nh) ℝ)
    (W2 : Matrix (Fin nh) (Fin nc) ℝ)
    (input_batch : Matrix (Fin nb) (Fin din) ℝ) :
    Matrix (Fin din) (Fin nh) ℝ :=
  input_batchᵀ * delta_hidden true_labels predictions hidden_activations W2

/-- Claim formula for the hidden activations of the forward pass:
`sigmoid(input_batch · W1 + b1)` with the bias broadcast across the batch
dimension and `sigmoid(x) = 1/(1+e^-x)` element-wise. -/
def claim_hidden {nb din nh : ℕ} (input_batch : Matrix (Fin nb) (Fin din) ℝ)
    (W1 : Matrix (Fin din) (Fin nh) ℝ) (b1 : Matrix (Fin 1) (Fin nh) ℝ) :
    Matrix (Fin nb) (Fin nh) ℝ :=
  fun i j => 1 / (1 + Real.exp (-((input_batch * W1) i j + b1 0 j)))

/-- Claim formula for the predictions of the forward pass:
`softmax(hidden_activations · W2 + b2)` applied row-wise,
`softmax(row)_i = e^(row_i) / Σ_j e^(row_j)`. -/
def claim_predictions {nb din nh nc : ℕ}
    (input_batch : Matrix (Fin nb) (Fin din) ℝ)
    (W1 : Matrix (Fin din) (Fin nh) ℝ) (b1 : Matrix (Fin 1) (Fin nh) ℝ)
    (W2 : Matrix (Fin nh) (Fin nc) ℝ) (b2 : Matrix (Fin 1) (Fin nc) ℝ) :
    Matrix (Fin nb) (Fin nc) ℝ :=
  fun i j =>
    Real.exp ((claim_hidden input_batch W1 b1 * W2) i j + b2 0 j) /
      ∑ k, Real.exp ((claim_hidden input_batch W1 b1 * W2) i k + b2 0 k)

/-- Claim C1: for every dimensionally consistent true-label batch `y`,
prediction batch `y_`, hidden-activation batch, weight and bias tensors and
input batch, `backprop` computes `d_output`, `grad_W2`, `delta_hidden`,
`grad_W1` and the (1 × dim) column-sum bias gradients exactly as the spec
states them, hands each of the four parameter tensors together with its
gradient to its associated gradient-descent Optimizer instance, and returns
the tuple (W2', b2', W1', b1'). -/
theorem backprop_matches_claim {nb din nh nc : ℕ} (lr : ℝ)
    (y y_ : Matrix (Fin nb) (Fin nc) ℝ)
    (hidden_output_activations : Matrix (Fin nb) (Fin nh) ℝ)
    (hidden_weights : Matrix (Fin nh) (Fin nc) ℝ)
    (input_weights : Matrix (Fin din) (Fin nh) ℝ)
    (bias_hidden : Matrix (Fin 1) (Fin nc) ℝ)
    (bias_input : Matrix (Fin 1) (Fin nh) ℝ)
    (input_x : Matrix (Fin nb) (Fin din) ℝ) :
    backprop lr y y_ hidden_output_activations hidden_weights input_weights
        bias_hidden bias_input input_x =
      ((GradientDescent.update_weights ⟨lr⟩ hidden_weights
          (grad_W2 y y_ hidden_output_activations)).1,
       (GradientDescent.update_weights ⟨lr⟩ bias_hidden
          (fun _ j => ∑ i, d_output y y_ i j)).1,
       (GradientDescent.update_weights ⟨lr⟩ input_weights
          (grad_W1 y y_ hidden_output_activations hidden_weights input_x)).1,
       (GradientDescent.update_weights ⟨lr⟩ bias_input
          (fun _ j =>
            ∑ i, delta_hidden y y_ hidden_output_activations hidden_weights i j)).1) :=
  rfl

/-- Claim C2: `forward_pass` returns the pair (predictions,
hidden_activations) where the hidden activations are
`sigmoid(input_batch · W1 + b1)` with the bias broadcast across the batch
dimension, and the predictions are the row-wise softmax of
`hidden_activations · W2 + b2`. -/
theorem forward_pass_matches_claim {nb din nh nc : ℕ}
    (input_batch : Matrix (Fin nb) (Fin din) ℝ)
    (W1 : Matrix (Fin din) (Fin nh) ℝ) (b1 : Matrix (Fin 1) (Fin nh) ℝ)
    (W2 : Matrix (Fin nh) (Fin nc) ℝ) (b2 : Matrix (Fin 1) (Fin nc) ℝ) :
    forward_pass input_batch W1 b1 W2 b2 =
      (claim_predictions input_batch W1 b1 W2 b2,
       claim_hidden input_batch W1 b1) :=
  rfl

/-- Claim C3: `log_loss` equals the mean over the batch rows of
`-Σ_i true_i · ln(pred_i) / num_classes`, with the division by the number of
classes inside the per-row expression. -/
theorem log_loss_matches_claim {m n : ℕ}
    (true_output net_output : Matrix (Fin m) (Fin n) ℝ) :
    log_loss true_output net_output =
      (∑ i, -(∑ j, true_output i j * Real.log (net_output i j)) / (n : ℝ)) /
        (m : ℝ) :=
  by simp [log_loss, neg_div, Finset.sum_div]

/-- Claim C4: whenever there is at least one class, every row of the
predictions returned by `forward_pass` is a valid probability distribution:
all entries are non-negative and each row sums to 1 (exactly, in the
real-number idealisation of floating point). -/
theorem forward_predictions_are_distributions {nb din nh nc : ℕ} (hc : 0 < nc)
    (input_batch : Matrix (Fin nb) (Fin din) ℝ)
    (W1 : Matrix (Fin din) (Fin nh) ℝ) (b1 : Matrix (Fin 1) (Fin nh) ℝ)
    (W2 : Matrix (Fin nh) (Fin nc) ℝ) (b2 : Matrix (Fin 1) (Fin nc) ℝ) :
    (∀ i j, 0 ≤ (forward_pass input_batch W1 b1 W2 b2).1 i j) ∧
      ∀ i, (∑ j, (forward_pass input_batch W1 b1 W2 b2).1 i j) = 1 := by
  haveI : Nonempty (Fin nc) := ⟨⟨0, hc⟩⟩
  set M : Matrix (Fin nb) (Fin nc) ℝ := fun i j =>
    (sigmoid (fun i j => (input_batch * W1) i j + b1 0 j) * W2) i j + b2 0 j
    with hM
  have hfp : (forward_pass input_batch W1 b1 W2 b2).1 = softmax M := rfl
  have hS : ∀ i, 0 < ∑ k, Real.exp (M i k) := fun i =>
    Finset.sum_pos (fun k _ => Real.exp_pos _) Finset.univ_nonempty
  refine ⟨fun i j => ?_, fun i => ?_⟩
  · rw [hfp]
    exact div_nonneg (Real.exp_pos _).le (hS i).le
  · rw [hfp]
    unfold softmax
    rw [← Finset.sum_div, div_self (hS i).ne']

/-- Witness for C4 at a concrete input: one example, one input feature, one
hidden unit, two classes, all-zero parameters. -/
theorem forward_predictions_are_distributions_witness :
    (0 < 2) ∧
      ((∀ i j, 0 ≤
          (forward_pass (!![0] : Matrix (Fin 1) (Fin 1) ℝ)
            !![0] !![0] !![0, 0] !![0, 0]).1 i j) ∧
        ∀ i, (∑ j,
          (forward_pass (!![0] : Matrix (Fin 1) (Fin 1) ℝ)
            !![0] !![0] !![0, 0] !![0, 0]).1 i j) = 1) :=
  ⟨by norm_num,
   forward_predictions_are_distributions (by norm_num) !![0] !![0] !![0]
     !![0, 0] !![0, 0]⟩

/-- Claim C5: one call to `RMSProp.update_weights` sets `r` to
`gamma · gradient² + (1 - gamma) · r` element-wise, computes
`velocity = (alpha / (sqrt r + eps)) ⊙ gradient` from the just-updated `r`,
and returns `weight - velocity`; `r` is zero at construction and the
configuration defaults are `gamma = 0.9`, `alpha = 0.001`, `eps = 1e-8`. -/
theorem rmsprop_update_matches_claim {m n : ℕ} (s : RMSProp m n)
    (weight gradient : Matrix (Fin m) (Fin n) ℝ) :
    (∀ gamma alpha eps, (RMSProp.new m n gamma alpha eps).r = 0) ∧
      RMSProp.update_weights s weight gradient =
        ((fun i j => weight i j -
            s.alpha /
              (Real.sqrt (s.gamma * gradient i j ^ 2 + (1 - s.gamma) * s.r i j) +
                s.eps) * gradient i j),
         (fun i j => weight i j -
            s.alpha /
              (Real.sqrt (s.gamma * gradient i j ^ 2 + (1 - s.gamma) * s.r i j) +
                s.eps) * gradient i j),
         ⟨s.gamma, s.alpha, s.eps,
          fun i j => s.gamma * gradient i j ^ 2 + (1 - s.gamma) * s.r i j,
          fun i j =>
            s.alpha /
              (Real.sqrt (s.gamma * gradient i j ^ 2 + (1 - s.gamma) * s.r i j) +
                s.eps) * gradient i j⟩) ∧
      (RMSProp.defaultNew m n).gamma = 0.9 ∧
      (RMSProp.defaultNew m n).alpha = 0.001 ∧
      (RMSProp.defaultNew m n).eps = 1e-8 :=
  ⟨fun _ _ _ => rfl, rfl, rfl, rfl, by norm_num [RMSProp.defaultNew, RMSProp.new]⟩

/-- The state of a freshly constructed default `RMSProp` (gamma = 0.9) after
exactly one `update_weights` call with gradient `[1, 1]` (and an arbitrary
weight tensor `[0, 0]`), as in the spec's hand-computed example. -/
def rmspropAfterOneStep : RMSProp 1 2 :=
  (RMSProp.update_weights (RMSProp.defaultNew 1 2) !![0, 0] !![1, 1]).2.2

/-- Counterexample to claim C6: after one update with gradient `[1, 1]` from
the zero-initialised state with gamma = 0.9, the stored `r` is not
`[0.1, 0.1]` as the claim asserts. -/
theorem rmsprop_r_after_one_update_ne_claimed :
    rmspropAfterOneStep.r ≠ !![0.1, 0.1] := by
  intro h
  have h00 := congrFun (congrFun h 0) 0
  norm_num [rmspropAfterOneStep, RMSProp.update_weights, RMSProp.defaultNew,
    RMSProp.new] at h00

/-- Amended claim C6: after exactly one update call on a freshly constructed
adaptive optimizer (r zero-initialised) with gamma = 0.9 and gradient
`[1, 1]`, the stored running statistic `r` equals `[0.9, 0.9]`, i.e. `r`
becomes `gamma * gradient² + gamma_complement * old_r`. -/
theorem rmsprop_r_after_one_update :
    rmspropAfterOneStep.r = !![0.9, 0.9] := by
  ext i j
  fin_cases i
  fin_cases j <;>
    norm_num [rmspropAfterOneStep, RMSProp.update_weights, RMSProp.defaultNew,
      RMSProp.new]

/-- Counterexample to claim C10: the gradient-descent `update_weights`
mutates the weight tensor handed to it (numpy's in-place `-=`): with
learning rate 0.001, weight `[[1]]` and gradient `[[1]]`, the caller's
weight array does not still hold `[[1]]` after the call. -/
theorem gd_update_mutates_weight_argument :
    (GradientDescent.update_weights ⟨0.001⟩ (!![1] : Matrix (Fin 1) (Fin 1) ℝ)
        !![1]).2 ≠ !![1] := by
  intro h
  have h00 := congrFun (congrFun h 0) 0
  norm_num [GradientDescent.update_weights] at h00

/-- Amended claim C10: each optimizer's `update_weights` computes the new
weights as a function of (current weights, gradient) only — for gradient
descent, `weight - learning_rate * gradient` — but performs the subtraction
in place, so after the call the weight-tensor argument holds exactly the
returned tensor; the optimizer's configuration fields are unchanged and only
the adaptive variant's running statistics (`r`, `velocity`) change between
calls. -/
theorem optimizer_update_value_and_mutation {m n : ℕ} (o : GradientDescent)
    (s : RMSProp m n) (w g : Matrix (Fin m) (Fin n) ℝ) :
    (GradientDescent.update_weights o w g).1 =
        (fun i j => w i j - o.learning_rate * g i j) ∧
      (GradientDescent.update_weights o w g).2 =
        (GradientDescent.update_weights o w g).1 ∧
      (RMSProp.update_weights s w g).2.1 = (RMSProp.update_weights s w g).1 ∧
      (RMSProp.update_weights s w g).2.2.gamma = s.gamma ∧
      (RMSProp.update_weights s w g).2.2.alpha = s.alpha ∧
      (RMSProp.update_weights s w g).2.2.eps = s.eps :=
  ⟨rfl, rfl, rfl, rfl, rfl, rfl⟩

end RealModel

/-! ## Accuracy reporting (the evaluation loop of `main` in simple_net.py)

The evaluation batcher yields one example per batch, so each `output_layer`
and `label_eval` is a single row and `np.argmax` (which flattens) is the
row's argmax.  `main` counts the rows where
`np.argmax(output_layer) == np.argmax(label_eval)` and prints
`correct_predictions / NO_EXAMPLES_TEST`, the number of evaluation examples.
Entries are modelled as rationals (an executable stand-in for floats —
argmax comparisons and the final division are exact). -/

/-- Helper for `argmax`: scans the remaining entries, keeping the index of
the first maximal entry seen so far (numpy's `argmax` returns the first
occurrence of the maximum). -/
def argmaxAux : List ℚ → ℕ → ℚ → ℕ → ℕ
  | [], best, _, _ => best
  | x :: xs, best, bestVal, idx =>
    if bestVal < x then argmaxAux xs idx x (idx + 1)
    else argmaxAux xs best bestVal (idx + 1)

/-- `np.argmax` on a single row: index of the first maximal entry. -/
def argmax : List ℚ → ℕ
  | [] => 0
  | x :: xs => argmaxAux xs 0 x 1

/-- The `correct_predictions` counter of the evaluation loop: the number of
(prediction row, label row) pairs whose argmaxes coincide. -/
def correctPredictions (examples : List (List ℚ × List ℚ)) : ℕ :=
  examples.countP fun e => argmax e.1 == argmax e.2

/-- The accuracy `main` reports after the evaluation loop:
`correct_predictions / NO_EXAMPLES_TEST`, with `NO_EXAMPLES_TEST` the number
of evaluation examples. -/
def testAccuracy (examples : List (List ℚ × List ℚ)) : ℚ :=
  (correctPredictions examples : ℚ) / (examples.length : ℚ)

/-- Claim C7: for a non-empty evaluation set in which every prediction row's
argmax equals its label row's argmax, the reported accuracy is 1; when no
row matches, it is 0. -/
theorem test_accuracy_extremes (examples : List (List ℚ × List ℚ))
    (hne : examples ≠ []) :
    ((∀ e ∈ examples, argmax e.1 = argmax e.2) → testAccuracy examples = 1) ∧
      ((∀ e ∈ examples, argmax e.1 ≠ argmax e.2) → testAccuracy examples = 0) := by
  have hlen : (examples.length : ℚ) ≠ 0 :=
    Nat.cast_ne_zero.mpr fun h => hne (List.length_eq_zero.mp h)
  constructor
  · intro hall
    have hcount : correctPredictions examples = examples.length := by
      unfold correctPredictions
      rw [List.countP_eq_length]
      intro a ha
      simpa using hall a ha
    unfold testAccuracy
    rw [hcount]
    exact div_self hlen
  · intro hnone
    have hcount : correctPredictions examples = 0 := by
      unfold correctPredictions
      rw [List.countP_eq_zero]
      intro a ha
      simpa using hnone a ha
    unfold testAccuracy
    rw [hcount]
    simp

/-- Witness for C7: a one-example evaluation set whose prediction and label
rows both have their maximum at index 0 is non-empty and gets accuracy 1. -/
theorem test_accuracy_extremes_witness :
    (([(([1, 0] : List ℚ), ([2, 0] : List ℚ))] :
        List (List ℚ × List ℚ)) ≠ []) ∧
      testAccuracy [(([1, 0] : List ℚ), ([2, 0] : List ℚ))] = 1 :=
  ⟨by simp,
   (test_accuracy_extremes [(([1, 0] : List ℚ), ([2, 0] : List ℚ))]
      (by simp)).1 (by decide)⟩

noncomputable section NpModel

/-! ## Untyped numpy model: shapes, broadcasting and non-finite results

The typed `Matrix` embedding above cannot express shape mismatches or
numpy's `inf`/`nan`, so the loss is modelled a second time on untyped
rectangular arrays (`UMat`, a list of rows).  Element-wise binary operations
follow numpy's 2-D broadcasting rule — a dimension matches if the two sizes
are equal or one of them is 1, otherwise the operation raises — and `np.log`
is partial: it yields a non-finite value (`-inf`, and `nan` after a `0 * -inf`
product) on any non-positive entry, modelled as `none`, which then propagates
through sum and mean exactly as non-finite values do in numpy. -/

/-- An untyped 2-D numpy array: a list of rows. -/
abbrev UMat : Type := List (List ℝ)

/-- Number of columns of an untyped array (length of its first row). -/
def ncols (a : UMat) : ℕ := (a.headD []).length

/-- Numpy's broadcast of one dimension: sizes match if equal or one is 1;
otherwise the operation fails. -/
def bdim (a b : ℕ) : Option ℕ :=
  if a = b then some a
  else if a = 1 then some b
  else if b = 1 then some a
  else none

/-- Entry (i, j) of an array under broadcasting: a size-1 dimension is read
at index 0 regardless of the requested index. -/
def bcastGet (a : UMat) (i j : ℕ) : ℝ :=
  (a.getD (if a.length = 1 then 0 else i) []).getD
    (if ncols a = 1 then 0 else j) 0

/-- A numpy element-wise binary operation (`-`, `np.multiply`, ...) on two
2-D arrays: broadcasts both dimensions, or fails when they are
incompatible. -/
def npBinop (f : ℝ → ℝ → ℝ) (a b : UMat) : Option UMat :=
  match bdim a.length b.length, bdim (ncols a) (ncols b) with
  | some M, some N =>
    some ((List.range M).map fun i =>
      (List.range N).map fun j => f (bcastGet a i j) (bcastGet b i j))
  | _, _ => none

/-- `np.log` on one entry: real logarithm on positive input, a non-finite
result (modelled as `none`) otherwise. -/
def safeLog (x : ℝ) : Option ℝ := if 0 < x then some (Real.log x) else none

/-- Maps a fallible function over a list, failing if any element fails (the
propagation of a non-finite entry through later element-wise arithmetic,
sums and means). -/
def optMap {α β : Type} (f : α → Option β) : List α → Option (List β)
  | [] => some []
  | x :: xs => (f x).bind fun y => (optMap f xs).map fun ys => y :: ys

/-- `np.log` applied element-wise to a 2-D array. -/
def npLog (a : UMat) : Option UMat := optMap (optMap safeLog) a

/-- `log_loss(true_output, net_output)` on untyped arrays, following the
source line by line:
`sum = - np.sum(np.multiply(true_output, np.log(net_output)) / net_output.shape[1], axis=1)`
then `np.mean(sum)`.  The result is `none` exactly when numpy's would be
non-finite (a non-positive prediction entry) or when the element-wise
multiply raises on broadcast-incompatible shapes. -/
def log_loss_np (true_output net_output : UMat) : Option ℝ :=
  (npLog net_output).bind fun logp =>
    (npBinop (fun x y => x * y) true_output logp).map fun prod =>
      let scaled := prod.map fun row => row.map fun x => x / (ncols net_output : ℝ)
      let rowNegSums := scaled.map fun row => -row.sum
      rowNegSums.sum / (rowNegSums.length : ℝ)

theorem optMap_isSome {α β : Type} (f : α → Option β) (l : List α)
    (h : ∀ x ∈ l, (f x).isSome = true) : (optMap f l).isSome = true := by
  induction l with
  | nil => simp [optMap]
  | cons x xs ih =>
    obtain ⟨y, hy⟩ :=
      Option.isSome_iff_exists.mp (h x (List.mem_cons_self x xs))
    obtain ⟨ys, hys⟩ :=
      Option.isSome_iff_exists.mp (ih fun a ha => h a (List.mem_cons_of_mem _ ha))
    simp [optMap, hy, hys]

theorem optMap_eq_none {α β : Type} (f : α → Option β) (l : List α) (x : α)
    (hx : x ∈ l) (hfx : f x = none) : optMap f l = none := by
  induction l with
  | nil => cases hx
  | cons a as ih =>
    rcases List.mem_cons.mp hx with h | h
    · subst h
      simp [optMap, hfx]
    · cases hfa : f a with
      | none => simp [optMap, hfa]
      | some y => simp [optMap, hfa, ih h]

theorem optMap_length {α β : Type} (f : α → Option β) {l : List α}
    {l2 : List β} (h : optMap f l = some l2) : l2.length = l.length := by
  induction l generalizing l2 with
  | nil =>
    simp [optMap] at h
    simp [← h]
  | cons a as ih =>
    cases hfa : f a with
    | none => simp [optMap, hfa] at h
    | some y =>
      cases hos : optMap f as with
      | none => simp [optMap, hfa, hos] at h
      | some ys =>
        simp [optMap, hfa, hos] at h
        simp [← h, ih hos]

theorem npLog_shape {p lp : UMat} (h : npLog p = some lp) :
    lp.length = p.length ∧ ncols lp = ncols p := by
  refine ⟨optMap_length _ h, ?_⟩
  cases p with
  | nil =>
    simp [npLog, optMap] at h
    simp [← h]
  | cons r rs =>
    cases hr : optMap safeLog r with
    | none => simp [npLog, optMap, hr] at h
    | some lr =>
      cases hrs : optMap (optMap safeLog) rs with
      | none => simp [npLog, optMap, hr, hrs] at h
      | some lrs =>
        simp [npLog, optMap, hr, hrs] at h
        simp [← h, ncols, optMap_length _ hr]

theorem npLog_isSome {p : UMat} (h : ∀ row ∈ p, ∀ x ∈ row, 0 < x) :
    (npLog p).isSome = true :=
  optMap_isSome _ _ fun row hrow =>
    optMap_isSome _ _ fun x hx => by simp [safeLog, h row hrow x hx]

theorem getD_mem {α : Type} (l : List α) (i : ℕ) (d : α) (h : i < l.length) :
    l.getD i d ∈ l := by
  rw [List.getD_eq_getElem l d h]
  exact List.getElem_mem h

/-- Counterexample to claim C8: the loss — one of the core operations — does
not fail on a shape mismatch beyond the documented bias-broadcast rule: a
1 × 2 true-label batch against a 2 × 2 prediction batch has mismatched
shapes, yet `log_loss` silently broadcasts the labels across the prediction
rows and produces a (finite) result. -/
theorem log_loss_np_broadcast_cex :
    (([[(1 : ℝ), 0]] : UMat).length ≠
        ([[(1 : ℝ) / 2, 1 / 2], [1 / 2, 1 / 2]] : UMat).length) ∧
      (log_loss_np [[(1 : ℝ), 0]]
          [[(1 : ℝ) / 2, 1 / 2], [1 / 2, 1 / 2]]).isSome = true := by
  constructor
  · simp
  · norm_num [log_loss_np, npLog, optMap, safeLog, npBinop, bdim, ncols]

/-- Amended claim C8: an element-wise operand pair whose shapes numpy cannot
broadcast (row counts differ and neither is 1) makes the operation fail, but
a mismatched pair that numpy can broadcast — here a 1 × c true-label batch
against an n × c prediction batch in the loss — is silently broadcast
rather than rejected, beyond the documented bias-broadcast rule. -/
theorem log_loss_np_shape_behavior :
    (∀ t p : UMat, t.length ≠ p.length → t.length ≠ 1 → p.length ≠ 1 →
        log_loss_np t p = none) ∧
      ∀ t p : UMat, t.length = 1 → ncols t = ncols p →
        (∀ row ∈ p, ∀ x ∈ row, 0 < x) →
        (log_loss_np t p).isSome = true := by
  constructor
  · intro t p hne ht1 hp1
    cases hlog : npLog p with
    | none => simp [log_loss_np, hlog]
    | some lp =>
      have hlen : lp.length = p.length := (npLog_shape hlog).1
      have hb : bdim t.length lp.length = none := by
        rw [hlen]
        simp [bdim, hne, ht1, hp1]
      simp [log_loss_np, hlog, npBinop, hb]
  · intro t p ht1 hcols hpos
    obtain ⟨lp, hlp⟩ := Option.isSome_iff_exists.mp (npLog_isSome hpos)
    have hsh := npLog_shape hlp
    have h1 : ∃ M, bdim t.length lp.length = some M := by
      rw [ht1]
      unfold bdim
      by_cases h : (1 : ℕ) = lp.length
      · exact ⟨1, by simp [h]⟩
      · exact ⟨lp.length, by simp [h]⟩
    obtain ⟨M, h1⟩ := h1
    have h2 : bdim (ncols t) (ncols lp) = some (ncols t) := by
      rw [hsh.2, ← hcols]
      simp [bdim]
    simp [log_loss_np, hlp, npBinop, h1, h2]

/-- Witness for the amended C8: a concrete 1 × 2 label batch against a 2 × 2
batch of strictly positive predictions satisfies the broadcast hypotheses,
and the loss indeed goes through. -/
theorem log_loss_np_shape_behavior_witness :
    (([[(1 : ℝ), 0]] : UMat).length = 1) ∧
      ncols ([[(1 : ℝ), 0]] : UMat) =
        ncols ([[(1 : ℝ) / 2, 1 / 2], [1 / 2, 1 / 2]] : UMat) ∧
      (log_loss_np [[(1 : ℝ), 0]]
          [[(1 : ℝ) / 2, 1 / 2], [1 / 2, 1 / 2]]).isSome = true :=
  ⟨rfl, rfl,
   log_loss_np_shape_behavior.2 [[(1 : ℝ), 0]]
     [[(1 : ℝ) / 2, 1 / 2], [1 / 2, 1 / 2]] rfl rfl (by norm_num)⟩

/-- Counterexample to claim C9: with the one-hot label row `[0, 1]` and
prediction row `[0, 1]`, the prediction at the true-label position is
strictly positive (it is 1), yet the loss is non-finite, because the
prediction entry 0 at the *other* position still goes through `np.log`
(`0 * log 0` is `nan` in numpy), contradicting the claim's "for all other
well-formed one-hot labels with strictly positive predictions at the
true-label positions the result is finite". -/
theorem log_loss_np_zero_at_nontrue_cex :
    ((0 : ℝ) < 1) ∧
      log_loss_np ([[(0 : ℝ), 1]] : UMat) ([[(0 : ℝ), 1]] : UMat) = none := by
  constructor
  · norm_num
  · simp [log_loss_np, npLog, optMap, safeLog]

/-- Amended claim C9: the loss produces a non-finite result (modelled as
`none`) whenever some prediction entry is exactly zero at a position where
the true label is 1 — there is no guard, clamp or exception — and for label
batches whose predictions are strictly positive at *every* position (not
just the true-label positions) the result is finite. -/
theorem log_loss_np_nonfinite_spec :
    (∀ (t p : UMat) (i j : ℕ), i < p.length → j < (p.getD i []).length →
        (t.getD i []).getD j 0 = 1 → (p.getD i []).getD j 0 = 0 →
        log_loss_np t p = none) ∧
      ∀ t p : UMat, t.length = p.length → ncols t = ncols p →
        (∀ row ∈ p, ∀ x ∈ row, 0 < x) →
        (log_loss_np t p).isSome = true := by
  constructor
  · intro t p i j hi hj _ hp0
    have hrow : p.getD i [] ∈ p := getD_mem p i [] hi
    have hx : (p.getD i []).getD j 0 ∈ p.getD i [] := getD_mem _ j 0 hj
    have hlogx : safeLog ((p.getD i []).getD j 0) = none := by
      rw [hp0]
      simp [safeLog]
    have hrowlog : optMap safeLog (p.getD i []) = none :=
      optMap_eq_none _ _ _ hx hlogx
    have hplog : npLog p = none := optMap_eq_none _ _ _ hrow hrowlog
    simp [log_loss_np, hplog]
  · intro t p hlen hcols hpos
    obtain ⟨lp, hlp⟩ := Option.isSome_iff_exists.mp (npLog_isSome hpos)
    have hsh := npLog_shape hlp
    have h1 : bdim t.length lp.length = some t.length := by
      rw [hsh.1, ← hlen]
      simp [bdim]
    have h2 : bdim (ncols t) (ncols lp) = some (ncols t) := by
      rw [hsh.2, ← hcols]
      simp [bdim]
    simp [log_loss_np, hlp, npBinop, h1, h2]

/-- Witness for the amended C9: label batch `[[1, 0]]` with prediction batch
`[[0, 1]]` has the prediction 0 exactly where the label is 1, and the loss
is non-finite there. -/
theorem log_loss_np_nonfinite_spec_witness :
    (0 < ([[(0 : ℝ), 1]] : UMat).length) ∧
      (0 < (([[(0 : ℝ), 1]] : UMat).getD 0 []).length) ∧
      ((([[(1 : ℝ), 0]] : UMat).getD 0 []).getD 0 0 = 1) ∧
      ((([[(0 : ℝ), 1]] : UMat).getD 0 []).getD 0 0 = 0) ∧
      log_loss_np ([[(1 : ℝ), 0]] : UMat) ([[(0 : ℝ), 1]] : UMat) = none :=
  ⟨by norm_num, by norm_num, rfl, rfl,
   log_loss_np_nonfinite_spec.1 [[(1 : ℝ), 0]] [[(0 : ℝ), 1]] 0 0
     (by norm_num) (by norm_num) rfl rfl⟩

end NpModel

end NNVerify
